import Mathlib

/-!
# cgitconf webhook dispatcher (`webhook/webhook.go`)

A shallow embedding of the webhook receiver and proofs about its dispatch.

Layout:

* `Sha256`, `Hmac`, `Hex` : the standard-library primitives that `verifySignature`
  calls (`crypto/sha256`, `crypto/hmac`, `encoding/hex`), as executable functions.
* `Scan` : what `fmt.Sscanf(sigHeader, "sha256=%s", &sig)` leaves in `sig`.
* `Json` : `encoding/json.Unmarshal` into the three struct types of the program.
* `Webhook` : `verifySignature`, `run` and `handler`, statement by statement; the
  handler returns the ordered trace of its observable effects.

Conventions.  A Go `string` is a Lean `String`, a `[]byte` is a `List UInt8`, and
`[]byte(s)` is the UTF-8 encoding of `s`.  Header values are taken as the rune
sequence that `fmt` reads from them, and are shorter than `2^30` runes (the
scanner's `hugeWid`; `net/http` caps a request's header block at 1 MiB).
Timing is outside the model: `hmac.Equal` is plain equality here.
-/

namespace Sha256

/-- Addition of 32-bit words. -/
def add32 (a b : Nat) : Nat := (a + b) % 4294967296

/-- Rotate a 32-bit word right by `n` bits (`0 < n < 32`). -/
def rotr (x n : Nat) : Nat := ((x >>> n) ||| (x <<< (32 - n))) % 4294967296

/-- Bitwise complement of a 32-bit word. -/
def not32 (x : Nat) : Nat := x ^^^ 4294967295

def ch (x y z : Nat) : Nat := (x &&& y) ^^^ (not32 x &&& z)

def maj (x y z : Nat) : Nat := (x &&& y) ^^^ (x &&& z) ^^^ (y &&& z)

def bsig0 (x : Nat) : Nat := rotr x 2 ^^^ rotr x 13 ^^^ rotr x 22

def bsig1 (x : Nat) : Nat := rotr x 6 ^^^ rotr x 11 ^^^ rotr x 25

def ssig0 (x : Nat) : Nat := rotr x 7 ^^^ rotr x 18 ^^^ (x >>> 3)

def ssig1 (x : Nat) : Nat := rotr x 17 ^^^ rotr x 19 ^^^ (x >>> 10)

/-- Round constants of FIPS 180-4, section 4.2.2. -/
def K : List Nat :=
  [0x428a2f98, 0x71374491, 0xb5c0fbcf, 0xe9b5dba5, 0x3956c25b, 0x59f111f1, 0x923f82a4, 0xab1c5ed5,
   0xd807aa98, 0x12835b01, 0x243185be, 0x550c7dc3, 0x72be5d74, 0x80deb1fe, 0x9bdc06a7, 0xc19bf174,
   0xe49b69c1, 0xefbe4786, 0x0fc19dc6, 0x240ca1cc, 0x2de92c6f, 0x4a7484aa, 0x5cb0a9dc, 0x76f988da,
   0x983e5152, 0xa831c66d, 0xb00327c8, 0xbf597fc7, 0xc6e00bf3, 0xd5a79147, 0x06ca6351, 0x14292967,
   0x27b70a85, 0x2e1b2138, 0x4d2c6dfc, 0x53380d13, 0x650a7354, 0x766a0abb, 0x81c2c92e, 0x92722c85,
   0xa2bfe8a1, 0xa81a664b, 0xc24b8b70, 0xc76c51a3, 0xd192e819, 0xd6990624, 0xf40e3585, 0x106aa070,
   0x19a4c116, 0x1e376c08, 0x2748774c, 0x34b0bcb5, 0x391c0cb3, 0x4ed8aa4a, 0x5b9cca4f, 0x682e6ff3,
   0x748f82ee, 0x78a5636f, 0x84c87814, 0x8cc70208, 0x90befffa, 0xa4506ceb, 0xbef9a3f7, 0xc67178f2]

/-- The eight working words of the hash. -/
structure State where
  a : Nat
  b : Nat
  c : Nat
  d : Nat
  e : Nat
  f : Nat
  g : Nat
  h : Nat
deriving DecidableEq, Repr

/-- Initial hash value of FIPS 180-4, section 5.3.3. -/
def H0 : State :=
  ⟨0x6a09e667, 0xbb67ae85, 0x3c6ef372, 0xa54ff53a, 0x510e527f, 0x9b05688c, 0x1f83d9ab, 0x5be0cd19⟩

/-- Big-endian 32-bit words of a 64-byte block. -/
def words : List Nat → List Nat
  | b0 :: b1 :: b2 :: b3 :: rest => (((b0 * 256 + b1) * 256 + b2) * 256 + b3) :: words rest
  | _ => []

/-- Prepend the next word of the message schedule to the words so far, latest first:
`w[i] = ssig1 w[i-2] + w[i-7] + ssig0 w[i-15] + w[i-16]`. -/
def extend (w : List Nat) : List Nat :=
  add32 (add32 (ssig1 (w.getD 1 0)) (w.getD 6 0))
    (add32 (ssig0 (w.getD 14 0)) (w.getD 15 0)) :: w

/-- The 64-word message schedule of a block. -/
def schedule (block : List Nat) : List Nat :=
  (Nat.iterate extend 48 (words block).reverse).reverse

/-- One round of the compression function. -/
def round (s : State) (kw : Nat × Nat) : State :=
  let t1 := add32 (add32 (add32 s.h (bsig1 s.e)) (ch s.e s.f s.g)) (add32 kw.1 kw.2)
  let t2 := add32 (bsig0 s.a) (maj s.a s.b s.c)
  ⟨add32 t1 t2, s.a, s.b, s.c, add32 s.d t1, s.e, s.f, s.g⟩

/-- The compression function on one 64-byte block. -/
def compress (s : State) (block : List Nat) : State :=
  let t := (K.zip (schedule block)).foldl round s
  ⟨add32 s.a t.a, add32 s.b t.b, add32 s.c t.c, add32 s.d t.d,
   add32 s.e t.e, add32 s.f t.f, add32 s.g t.g, add32 s.h t.h⟩

/-- Feed one byte: the buffer holds the bytes of the open block, latest first, and a full
64-byte block is compressed into the state. -/
def absorb (s : State × List Nat) (b : Nat) : State × List Nat :=
  if s.2.length = 63 then (compress s.1 (b :: s.2).reverse, []) else (s.1, b :: s.2)

/-- Big-endian bytes of a word, `n` bytes wide. -/
def beBytes : Nat → Nat → List Nat
  | 0, _ => []
  | n + 1, x => beBytes n (x / 256) ++ [x % 256]

/-- Padding of a message of `len` bytes: `0x80`, zeros up to 56 mod 64, bit length. -/
def padding (len : Nat) : List Nat :=
  128 :: List.replicate ((119 - len % 64) % 64) 0 ++ beBytes 8 ((8 * len) % 18446744073709551616)

/-- The 32 digest bytes of a state. -/
def State.bytes (s : State) : List Nat :=
  beBytes 4 s.a ++ beBytes 4 s.b ++ beBytes 4 s.c ++ beBytes 4 s.d ++
  beBytes 4 s.e ++ beBytes 4 s.f ++ beBytes 4 s.g ++ beBytes 4 s.h

/-- SHA-256 on byte values. -/
def sumNat (msg : List Nat) : List Nat :=
  ((msg ++ padding msg.length).foldl absorb (H0, [])).1.bytes

/-- Definition `sha256.Sum256`: the SHA-256 digest of a byte string. -/
def sum (msg : List UInt8) : List UInt8 :=
  (sumNat (msg.map UInt8.toNat)).map UInt8.ofNat

end Sha256

namespace Hmac

/-- Definition `hmac.New(sha256.New, key)`, `Write(msg)`, `Sum(nil)`: HMAC-SHA256 of RFC 2104
with the 64-byte block of SHA-256. -/
def sum (key msg : List UInt8) : List UInt8 :=
  let k0 := if 64 < key.length then Sha256.sum key else key
  let k := k0 ++ List.replicate (64 - k0.length) 0
  let ipad := k.map (fun b => b ^^^ 0x36)
  let opad := k.map (fun b => b ^^^ 0x5c)
  Sha256.sum (opad ++ Sha256.sum (ipad ++ msg))

end Hmac

namespace Hex

/-- The digit table of `encoding/hex`. -/
def hextable : List Char :=
  ['0', '1', '2', '3', '4', '5', '6', '7', '8', '9', 'a', 'b', 'c', 'd', 'e', 'f']

/-- Lower-case hexadecimal digit of a value below 16. -/
def digit (n : Nat) : Char := hextable.getD n '0'

/-- The two digits of each byte, high nibble first. -/
def encodeChars : List UInt8 → List Char
  | [] => []
  | b :: bs => digit (b.toNat / 16) :: digit (b.toNat % 16) :: encodeChars bs

/-- Definition `hex.EncodeToString`. -/
def encodeToString (bs : List UInt8) : String := ⟨encodeChars bs⟩

end Hex

/-- UTF-8 encoding of one rune. -/
def utf8Rune (c : Char) : List UInt8 :=
  let n := c.toNat
  if n < 128 then [UInt8.ofNat n]
  else if n < 2048 then [UInt8.ofNat (192 + n / 64), UInt8.ofNat (128 + n % 64)]
  else if n < 65536 then
    [UInt8.ofNat (224 + n / 4096), UInt8.ofNat (128 + n / 64 % 64), UInt8.ofNat (128 + n % 64)]
  else
    [UInt8.ofNat (240 + n / 262144), UInt8.ofNat (128 + n / 4096 % 64),
     UInt8.ofNat (128 + n / 64 % 64), UInt8.ofNat (128 + n % 64)]

/-- Conversion `[]byte(s)`: the bytes of a string. -/
def bytesOf (s : String) : List UInt8 := s.data.flatMap utf8Rune

namespace Scan

/-- The table `space` of `fmt/scan.go`: the ranges of runes that count as space. -/
def space : List (Nat × Nat) :=
  [(0x0009, 0x000d), (0x0020, 0x0020), (0x0085, 0x0085), (0x00a0, 0x00a0), (0x1680, 0x1680),
   (0x2000, 0x200a), (0x2028, 0x2029), (0x202f, 0x202f), (0x205f, 0x205f), (0x3000, 0x3000)]

/-- Definition `isSpace` of `fmt/scan.go`. -/
def isSpace (r : Char) : Bool :=
  space.any (fun rng => decide (rng.1 ≤ r.toNat) && decide (r.toNat ≤ rng.2))

/-- Method `ss.advance` on a format of literal runes (no space, no percent sign): every rune of
the format must be the next rune of the input.  `none` is the scan error ("input does not
match format", or "unexpected EOF" when the input ends first). -/
def advance : List Char → List Char → Option (List Char)
  | [], input => some input
  | _ :: _, [] => none
  | f :: fs, r :: input => if f = r then advance fs input else none

/-- Method `ss.SkipSpace` with `nlIsSpace = false`, as `Sscanf` sets it: spaces are dropped, a
carriage return before a newline is dropped, and a newline is the scan error "unexpected
newline" (`none`). -/
def skipSpace : List Char → Option (List Char)
  | [] => some []
  | r :: input =>
    if r = '\r' ∧ input.head? = some '\n' then skipSpace input
    else if r = '\n' then none
    else if !isSpace r then some (r :: input)
    else skipSpace input

/-- Method `ss.token(true, notSpace)` once spaces are skipped: the runes before the first space. -/
def token (input : List Char) : List Char :=
  input.takeWhile (fun r => !isSpace r)

/-- Value of `sig` after `var sig string; fmt.Sscanf(sigHeader, "sha256=%s", &sig)`.
The verb `%s` skips spaces, fails at end of input (`io.EOF`), and otherwise stores the next
space-delimited word; on every scan error `sig` keeps its zero value `""`. -/
def sscanfSig (sigHeader : String) : String :=
  match advance "sha256=".data sigHeader.data with
  | none => ""
  | some rest =>
    match skipSpace rest with
    | none => ""
    | some [] => ""
    | some (r :: input) => ⟨token (r :: input)⟩

/-- A run of runes that `skipSpace` drops: spaces other than newline. -/
def Blank (ws : List Char) : Prop := ∀ c ∈ ws, isSpace c = true ∧ c ≠ '\n'

/-- The header values from which `sscanfSig` reads the word `e`: `sha256=`, then spaces other
than newline (possibly none), then `e`, then nothing more or a space and any text. -/
def Reads (e : String) (sigHeader : String) : Prop :=
  ∃ ws rest, sigHeader.data = "sha256=".data ++ ws ++ e.data ++ rest ∧ Blank ws ∧
    ∀ c ∈ rest.head?, isSpace c = true

end Scan

namespace Json

/-- A JSON value as `encoding/json` reads it; strings are already unquoted. -/
inductive Value where
  | null
  | bool (b : Bool)
  | number (lit : List Nat)
  | string (s : String)
  | array (elems : List Value)
  | object (members : List (String × Value))

/-- The name `encoding/json` gives a value's kind in an `UnmarshalTypeError`. -/
def Value.kind : Value → String
  | .null => "null"
  | .bool _ => "bool"
  | .number _ => "number"
  | .string _ => "string"
  | .array _ => "array"
  | .object _ => "object"

/-- Value of a hexadecimal digit byte, as in `getu4`. -/
def hexVal (b : Nat) : Option Nat :=
  if 48 ≤ b ∧ b ≤ 57 then some (b - 48)
  else if 97 ≤ b ∧ b ≤ 102 then some (b - 87)
  else if 65 ≤ b ∧ b ≤ 70 then some (b - 55)
  else none

/-- Definition `getu4`: the code unit written by four hexadecimal digits. -/
def getu4 (a b c d : Nat) : Option Nat :=
  match hexVal a, hexVal b, hexVal c, hexVal d with
  | some x, some y, some z, some w => some (((x * 16 + y) * 16 + z) * 16 + w)
  | _, _, _, _ => none

/-- The rune of a single-character escape: one of `"`, `\`, `/`, `b`, `f`, `n`, `r`, `t`. -/
def escapeRune (b : Nat) : Option Char :=
  if b = 34 then some (Char.ofNat 34)
  else if b = 92 then some (Char.ofNat 92)
  else if b = 47 then some '/'
  else if b = 98 then some (Char.ofNat 8)
  else if b = 102 then some (Char.ofNat 12)
  else if b = 110 then some '\n'
  else if b = 114 then some '\r'
  else if b = 116 then some '\t'
  else none

/-- The rune `unicode.ReplacementChar`. -/
def replacementChar : Char := Char.ofNat 0xFFFD

/-- A UTF-16 surrogate code unit (`utf16.IsSurrogate`). -/
def isSurrogate (r : Nat) : Bool := decide (0xD800 ≤ r) && decide (r < 0xE000)

/-- Definition `utf16.DecodeRune`: the rune of a high and a low surrogate. -/
def decodeSurrogates (r1 r2 : Nat) : Option Char :=
  if 0xD800 ≤ r1 ∧ r1 < 0xDC00 ∧ 0xDC00 ≤ r2 ∧ r2 < 0xE000 then
    some (Char.ofNat ((r1 - 0xD800) * 1024 + (r2 - 0xDC00) + 0x10000))
  else none

/-- A UTF-8 continuation byte. -/
def isCont (b : Nat) : Bool := decide (128 ≤ b) && decide (b < 192)

/-- Interval of second bytes that `utf8.DecodeRune` accepts after the lead byte `b`. -/
def secondOk (b c : Nat) : Bool :=
  if b = 0xE0 then decide (0xA0 ≤ c) && decide (c ≤ 0xBF)
  else if b = 0xED then decide (0x80 ≤ c) && decide (c ≤ 0x9F)
  else if b = 0xF0 then decide (0x90 ≤ c) && decide (c ≤ 0xBF)
  else if b = 0xF4 then decide (0x80 ≤ c) && decide (c ≤ 0x8F)
  else isCont c

/-- Definition `utf8.DecodeRune` on a lead byte `b ≥ 0x80` and the bytes after it: the rune, and
how many of the following bytes belong to it; an ill-formed sequence is U+FFFD of width one. -/
def decodeRune (b : Nat) (rest : List Nat) : Char × Nat :=
  if 0xC2 ≤ b ∧ b ≤ 0xDF then
    match rest with
    | c1 :: _ =>
      if isCont c1 then (Char.ofNat ((b - 0xC0) * 64 + (c1 - 128)), 1) else (replacementChar, 0)
    | _ => (replacementChar, 0)
  else if 0xE0 ≤ b ∧ b ≤ 0xEF then
    match rest with
    | c1 :: c2 :: _ =>
      if secondOk b c1 && isCont c2 then
        (Char.ofNat (((b - 0xE0) * 64 + (c1 - 128)) * 64 + (c2 - 128)), 2)
      else (replacementChar, 0)
    | _ => (replacementChar, 0)
  else if 0xF0 ≤ b ∧ b ≤ 0xF4 then
    match rest with
    | c1 :: c2 :: c3 :: _ =>
      if secondOk b c1 && isCont c2 && isCont c3 then
        (Char.ofNat ((((b - 0xF0) * 64 + (c1 - 128)) * 64 + (c2 - 128)) * 64 + (c3 - 128)), 3)
      else (replacementChar, 0)
    | _ => (replacementChar, 0)
  else (replacementChar, 0)

/-- One turn of the loop of `unquoteBytes`, on the byte `b` and the bytes after it: the rune it
writes, and how many of the following bytes it consumes with `b`.  An escape is replaced, a
surrogate escape without its partner and every byte that is not well-formed UTF-8 become
U+FFFD.  `none` is a syntax error of the scanner: a control byte or an unknown escape. -/
def unquoteHead (b : Nat) (rest : List Nat) : Option (Char × Nat) :=
  if b = 92 then
    match rest with
    | [] => none
    | c :: rest1 =>
      if c = 117 then
        match rest1 with
        | h1 :: h2 :: h3 :: h4 :: rest2 =>
          match getu4 h1 h2 h3 h4 with
          | none => none
          | some rr =>
            if isSurrogate rr then
              match rest2 with
              | e :: u :: l1 :: l2 :: l3 :: l4 :: _ =>
                match (if e = 92 ∧ u = 117 then getu4 l1 l2 l3 l4 else none) with
                | some rr1 =>
                  match decodeSurrogates rr rr1 with
                  | some r => some (r, 11)
                  | none => some (replacementChar, 5)
                | none => some (replacementChar, 5)
              | _ => some (replacementChar, 5)
            else some (Char.ofNat rr, 5)
        | _ => none
      else (escapeRune c).map (fun r => (r, 1))
  else if b < 32 then none
  else if b < 128 then some (Char.ofNat b, 0)
  else some (decodeRune b rest)

/-- The loop of `unquoteBytes`; the next `skip` bytes belong to the rune written last. -/
def unquoteLoop : Nat → List Nat → Option (List Char)
  | _, [] => some []
  | skip + 1, _ :: rest => unquoteLoop skip rest
  | 0, b :: rest =>
    match unquoteHead b rest with
    | none => none
    | some (r, skip) => (unquoteLoop skip rest).map (fun s => r :: s)

/-- Definition `unquoteBytes` on the bytes between the quotes of a string literal, together
with the scanner's check of them. -/
def unquote (raw : List Nat) : Option (List Char) := unquoteLoop 0 raw

/-- States of the scanner inside a number literal (`stateNeg`, `state0`, `state1`, `stateDot`,
`stateDot0`, `stateE`, `stateESign`, `stateE0`), with `begin` before its first byte. -/
inductive NumState where
  | begin | neg | zero | int | dot | frac | exp | expSign | expDigits
deriving DecidableEq

/-- A decimal digit byte. -/
def isDigit (b : Nat) : Bool := decide (48 ≤ b) && decide (b ≤ 57)

/-- One scanner step inside a number literal; `none` is a syntax error. -/
def numStep (s : NumState) (b : Nat) : Option NumState :=
  match s with
  | .begin => if b = 45 then some .neg else if b = 48 then some .zero
              else if isDigit b then some .int else none
  | .neg => if b = 48 then some .zero else if isDigit b then some .int else none
  | .zero => if b = 46 then some .dot else if b = 101 ∨ b = 69 then some .exp else none
  | .int => if isDigit b then some .int else if b = 46 then some .dot
            else if b = 101 ∨ b = 69 then some .exp else none
  | .dot => if isDigit b then some .frac else none
  | .frac => if isDigit b then some .frac else if b = 101 ∨ b = 69 then some .exp else none
  | .exp => if b = 43 ∨ b = 45 then some .expSign else if isDigit b then some .expDigits else none
  | .expSign => if isDigit b then some .expDigits else none
  | .expDigits => if isDigit b then some .expDigits else none

/-- The scanner accepts the bytes as one number literal. -/
def isNumber (lit : List Nat) : Bool :=
  match lit.foldl (fun s b => s.bind (fun t => numStep t b)) (some NumState.begin) with
  | some .zero => true
  | some .int => true
  | some .frac => true
  | some .expDigits => true
  | _ => false

/-- Tokens of a JSON text. -/
inductive Token where
  | beginArray | endArray | beginObject | endObject | colon | comma
  | scalar (v : Value)

/-- The value of a bare word: `true`, `false`, `null` or a number literal. -/
def wordValue (w : List Nat) : Option Value :=
  if w = [116, 114, 117, 101] then some (.bool true)
  else if w = [102, 97, 108, 115, 101] then some (.bool false)
  else if w = [110, 117, 108, 108] then some .null
  else if isNumber w then some (.number w)
  else none

/-- Where the lexer stands: between tokens, inside a string literal (after a backslash or
not), or inside a bare word.  The bytes read so far are kept latest first. -/
inductive Mode where
  | start
  | str (raw : List Nat)
  | esc (raw : List Nat)
  | word (raw : List Nat)

/-- Lexer state: the mode and the tokens so far, latest first. -/
structure Lexer where
  mode : Mode
  toks : List Token

/-- White space between tokens (`isSpace` of the scanner). -/
def isWhite (b : Nat) : Bool := b = 32 || b = 9 || b = 13 || b = 10

/-- Bytes a bare word is made of: digits, letters, sign and point. -/
def isWordByte (b : Nat) : Bool :=
  isDigit b || (decide (65 ≤ b) && decide (b ≤ 90)) || (decide (97 ≤ b) && decide (b ≤ 122))
    || b = 43 || b = 45 || b = 46

/-- The structural token of a byte. -/
def punct (b : Nat) : Option Token :=
  if b = 91 then some .beginArray
  else if b = 93 then some .endArray
  else if b = 123 then some .beginObject
  else if b = 125 then some .endObject
  else if b = 58 then some .colon
  else if b = 44 then some .comma
  else none

/-- A byte read between tokens. -/
def startByte (toks : List Token) (b : Nat) : Option Lexer :=
  if isWhite b then some ⟨.start, toks⟩
  else if b = 34 then some ⟨.str [], toks⟩
  else if isWordByte b then some ⟨.word [b], toks⟩
  else (punct b).map (fun t => ⟨.start, t :: toks⟩)

/-- One byte of input; `none` is a syntax error. -/
def lexStep (l : Lexer) (b : Nat) : Option Lexer :=
  match l.mode with
  | .start => startByte l.toks b
  | .str raw =>
    if b = 34 then
      (unquote raw.reverse).map (fun s => ⟨.start, .scalar (.string ⟨s⟩) :: l.toks⟩)
    else if b = 92 then some ⟨.esc (b :: raw), l.toks⟩
    else some ⟨.str (b :: raw), l.toks⟩
  | .esc raw => some ⟨.str (b :: raw), l.toks⟩
  | .word raw =>
    if isWordByte b then some ⟨.word (b :: raw), l.toks⟩
    else (wordValue raw.reverse).bind (fun v => startByte (.scalar v :: l.toks) b)

/-- End of input: a word ends here, an open string is a syntax error. -/
def lexEnd (l : Lexer) : Option (List Token) :=
  match l.mode with
  | .start => some l.toks.reverse
  | .word raw => (wordValue raw.reverse).map (fun v => (Token.scalar v :: l.toks).reverse)
  | _ => none

/-- The tokens of a JSON text. -/
def lex (data : List Nat) : Option (List Token) :=
  (data.foldl (fun s b => s.bind (fun l => lexStep l b)) (some ⟨.start, []⟩)).bind lexEnd

/-- An open array with its elements, or an open object with its members and the key read
last; latest first. -/
inductive Frame where
  | arr (elems : List Value)
  | obj (members : List (String × Value)) (key : String)

/-- What the grammar allows next. -/
inductive Expect where
  | value | valueOrClose | key | keyOrClose | colon | next
deriving DecidableEq

/-- Parser state: open containers (innermost first) and the position in the grammar, or the
finished top-level value. -/
inductive Parser where
  | run (stack : List Frame) (expect : Expect)
  | done (v : Value)

/-- Constant `maxNestingDepth` of the scanner. -/
def maxNestingDepth : Nat := 10000

/-- A value is complete: it goes into the innermost open container, or is the result. -/
def put (v : Value) : List Frame → Parser
  | [] => .done v
  | .arr elems :: stack => .run (.arr (v :: elems) :: stack) .next
  | .obj members key :: stack => .run (.obj ((key, v) :: members) key :: stack) .next

/-- One token; `none` is a syntax error. -/
def parseStep (p : Parser) (t : Token) : Option Parser :=
  match p with
  | .done _ => none
  | .run stack expect =>
    match t with
    | .scalar v =>
      if expect = .value ∨ expect = .valueOrClose then some (put v stack)
      else if expect = .key ∨ expect = .keyOrClose then
        match v, stack with
        | .string k, .obj members _ :: rest => some (.run (.obj members k :: rest) .colon)
        | _, _ => none
      else none
    | .beginArray =>
      if (expect = .value ∨ expect = .valueOrClose) ∧ stack.length < maxNestingDepth then
        some (.run (.arr [] :: stack) .valueOrClose)
      else none
    | .beginObject =>
      if (expect = .value ∨ expect = .valueOrClose) ∧ stack.length < maxNestingDepth then
        some (.run (.obj [] "" :: stack) .keyOrClose)
      else none
    | .endArray =>
      match stack with
      | .arr elems :: rest =>
        if expect = .valueOrClose ∨ expect = .next then some (put (.array elems.reverse) rest)
        else none
      | _ => none
    | .endObject =>
      match stack with
      | .obj members _ :: rest =>
        if expect = .keyOrClose ∨ expect = .next then some (put (.object members.reverse) rest)
        else none
      | _ => none
    | .colon => if expect = .colon then some (.run stack .value) else none
    | .comma =>
      if expect = .next then
        match stack with
        | .arr _ :: _ => some (.run stack .value)
        | .obj _ _ :: _ => some (.run stack .key)
        | [] => none
      else none

/-- The value of a JSON text (`checkValid` and the reading of the value in one pass):
exactly one value with optional white space around it, or `none` for a syntax error. -/
def parse (data : List UInt8) : Option Value :=
  match (lex (data.map UInt8.toNat)).bind
      (fun toks => toks.foldl (fun s t => s.bind (fun p => parseStep p t))
        (some (Parser.run [] .value))) with
  | some (.done v) => some v
  | _ => none

end Json

namespace Json

/-- The errors `json.Unmarshal` returns: a text that is not valid JSON, or a value of the
wrong kind for its Go target. -/
inductive Error where
  | SyntaxError
  | UnmarshalTypeError (value : String)
deriving DecidableEq, Repr

/-- Method `decodeState.saveError`: only the first error is kept, and decoding goes on. -/
def saveError (saved : Option Error) (e : Error) : Option Error :=
  match saved with
  | none => some e
  | some s => some s

/-- Case folding of key matching (`foldName`, `equalFold`), as far as it can reach an ASCII
name: lower-case ASCII letters, the long s (U+017F) and the Kelvin sign (U+212A). -/
def foldRune (r : Char) : Char :=
  if 97 ≤ r.toNat ∧ r.toNat ≤ 122 then Char.ofNat (r.toNat - 32)
  else if r.toNat = 0x17F then 'S'
  else if r.toNat = 0x212A then 'K'
  else r

def foldName (s : String) : String := ⟨s.data.map foldRune⟩

/-- The struct field an object key is stored in: the field with exactly that name, else the
first field whose name matches without regard to case. -/
def findField (fields : List String) (key : String) : Option String :=
  match fields.find? (fun f => decide (f = key)) with
  | some f => some f
  | none => fields.find? (fun f => decide (foldName f = foldName key))

/-- Store a value in a Go `string`: a JSON string is stored, `null` changes nothing, every
other kind is an `UnmarshalTypeError` and changes nothing. -/
def storeString (v : Value) (old : String × Option Error) : String × Option Error :=
  match v with
  | .string s => (s, old.2)
  | .null => old
  | _ => (old.1, saveError old.2 (.UnmarshalTypeError v.kind))

/-- Store a value in a Go `bool`. -/
def storeBool (v : Value) (old : Bool × Option Error) : Bool × Option Error :=
  match v with
  | .bool b => (b, old.2)
  | .null => old
  | _ => (old.1, saveError old.2 (.UnmarshalTypeError v.kind))

/-- Store a value in a Go struct whose fields are stored by `field`: the members of an
object are stored in order, keys without a field are skipped, `null` changes nothing, every
other kind is an `UnmarshalTypeError` and changes nothing. -/
def storeStruct {α : Type} (names : List String)
    (field : String → Value → α × Option Error → α × Option Error)
    (v : Value) (old : α × Option Error) : α × Option Error :=
  match v with
  | .object members =>
    members.foldl (fun acc m =>
      match findField names m.1 with
      | some f => field f m.2 acc
      | none => acc) old
  | .null => old
  | _ => (old.1, saveError old.2 (.UnmarshalTypeError v.kind))

end Json

namespace Webhook

open Json

/-- Go type `Repo`. -/
structure Repo where
  Name : String
  FullName : String
  CloneURL : String
  Private : Bool
deriving DecidableEq, Repr

/-- Go type `RepoEvent`. -/
structure RepoEvent where
  Action : String
  Repository : Repo
deriving DecidableEq, Repr

/-- Go type `InstallationRepoEvent`. -/
structure InstallationRepoEvent where
  Action : String
  RepositoriesAdded : List Repo
  RepositoriesRemoved : List Repo
deriving DecidableEq, Repr

/-- The inner anonymous struct of `old` in `handler`. -/
structure OldRepository where
  PreviousName : String
deriving DecidableEq, Repr

/-- The anonymous struct type of `old` in `handler`. -/
structure Old where
  Repository : OldRepository
deriving DecidableEq, Repr

/-- Zero value of `Repo`. -/
def Repo.zero : Repo := ⟨"", "", "", false⟩

/-- Zero value of `RepoEvent` (`var ev RepoEvent`). -/
def RepoEvent.zero : RepoEvent := ⟨"", Repo.zero⟩

/-- Zero value of `InstallationRepoEvent`. -/
def InstallationRepoEvent.zero : InstallationRepoEvent := ⟨"", [], []⟩

/-- Zero value of the struct `old`. -/
def Old.zero : Old := ⟨⟨""⟩⟩

/-- Decoding into a `Repo`, by its `json` tags. -/
def storeRepo : Value → Repo × Option Error → Repo × Option Error :=
  storeStruct ["name", "full_name", "clone_url", "private"] (fun f v acc =>
    if f = "name" then
      let r := storeString v (acc.1.Name, acc.2)
      ({ acc.1 with Name := r.1 }, r.2)
    else if f = "full_name" then
      let r := storeString v (acc.1.FullName, acc.2)
      ({ acc.1 with FullName := r.1 }, r.2)
    else if f = "clone_url" then
      let r := storeString v (acc.1.CloneURL, acc.2)
      ({ acc.1 with CloneURL := r.1 }, r.2)
    else
      let r := storeBool v (acc.1.Private, acc.2)
      ({ acc.1 with Private := r.1 }, r.2))

/-- Decoding into a `RepoEvent`. -/
def storeRepoEvent : Value → RepoEvent × Option Error → RepoEvent × Option Error :=
  storeStruct ["action", "repository"] (fun f v acc =>
    if f = "action" then
      let r := storeString v (acc.1.Action, acc.2)
      ({ acc.1 with Action := r.1 }, r.2)
    else
      let r := storeRepo v (acc.1.Repository, acc.2)
      ({ acc.1 with Repository := r.1 }, r.2))

/-- Decoding into the struct `old`. -/
def storeOld : Value → Old × Option Error → Old × Option Error :=
  storeStruct ["repository"] (fun _ v acc =>
    let r := storeStruct ["previous_name"] (fun _ w a =>
      let s := storeString w (a.1.PreviousName, a.2)
      (⟨s.1⟩, s.2)) v (acc.1.Repository, acc.2)
    (⟨r.1⟩, r.2))

/-- The elements of a JSON array decoded into a `[]Repo`: element `i` is decoded into the
slice's element `i` when it has one, else into a zero `Repo`. -/
def storeElems : List Value → List Repo → Option Error → List Repo × Option Error
  | [], _, saved => ([], saved)
  | v :: vs, olds, saved =>
    let r := storeRepo v (olds.headD Repo.zero, saved)
    let rs := storeElems vs olds.tail r.2
    (r.1 :: rs.1, rs.2)

/-- Store a value in a Go `[]Repo`: an array gives a slice of as many elements, `null` gives
the nil slice, every other kind is an `UnmarshalTypeError` and changes nothing.  (What Go
leaves in a slice's capacity past its length is not modelled; `handler` reads only `len`.) -/
def storeRepos (v : Value) (old : List Repo × Option Error) : List Repo × Option Error :=
  match v with
  | .array elems => storeElems elems old.1 old.2
  | .null => ([], old.2)
  | _ => (old.1, saveError old.2 (.UnmarshalTypeError v.kind))

/-- Decoding into an `InstallationRepoEvent`. -/
def storeInstallationRepoEvent :
    Value → InstallationRepoEvent × Option Error → InstallationRepoEvent × Option Error :=
  storeStruct ["action", "repositories_added", "repositories_removed"] (fun f v acc =>
    if f = "action" then
      let r := storeString v (acc.1.Action, acc.2)
      ({ acc.1 with Action := r.1 }, r.2)
    else if f = "repositories_added" then
      let r := storeRepos v (acc.1.RepositoriesAdded, acc.2)
      ({ acc.1 with RepositoriesAdded := r.1 }, r.2)
    else
      let r := storeRepos v (acc.1.RepositoriesRemoved, acc.2)
      ({ acc.1 with RepositoriesRemoved := r.1 }, r.2))

/-- Call `json.Unmarshal(data, &v)`: the new value of `v` and the returned error.  A text that
is not valid JSON leaves `v` as it was. -/
def unmarshal {α : Type} (store : Value → α × Option Error → α × Option Error)
    (data : List UInt8) (v : α) : α × Option Error :=
  match parse data with
  | none => (v, some .SyntaxError)
  | some j => store j (v, none)

/-- The value of `ev` after `var ev RepoEvent; json.Unmarshal(body, &ev)`; the error that
`Unmarshal` returns is dropped. -/
def decodeRepoEvent (body : List UInt8) : RepoEvent :=
  (unmarshal storeRepoEvent body RepoEvent.zero).1

/-- The value of `old` after `json.Unmarshal(body, &old)`; the returned error is dropped. -/
def decodeOld (body : List UInt8) : Old :=
  (unmarshal storeOld body Old.zero).1

/-- The value of `ev` after `var ev InstallationRepoEvent; json.Unmarshal(body, &ev)`. -/
def decodeInstallationRepoEvent (body : List UInt8) : InstallationRepoEvent :=
  (unmarshal storeInstallationRepoEvent body InstallationRepoEvent.zero).1

/-- The four settings of the program, read once at start. -/
structure Config where
  secret : String
  mirrorBin : String
  mirrorSyncBin : String
  repoRoot : String
deriving DecidableEq, Repr

/-- Go function `getenv`: the variable's value, or `dflt` when it is unset or empty. -/
def getenv (environ : String → String) (k dflt : String) : String :=
  if environ k ≠ "" then environ k else dflt

/-- The package-level variables `secret`, `mirrorBin`, `mirrorSyncBin`, `repoRoot`. -/
def Config.load (environ : String → String) : Config :=
  { secret := getenv environ "WEBHOOK_SECRET" "DOYOUREALLYTHINKIEXPOSESECRETS?"
    mirrorBin := getenv environ "MIRROR_BIN" "/usr/local/bin/mirror"
    mirrorSyncBin := getenv environ "MIRROR_SYNC_BIN" "/usr/local/bin/mirror-sync"
    repoRoot := getenv environ "REPO_ROOT" "/root/shifoogit/repos" }

/-- What `handler` reads of a request: the body (`io.ReadAll(r.Body)`) and the values of
`r.Header.Get("X-Hub-Signature-256")` and `r.Header.Get("X-GitHub-Event")`, each `""` when the
header is missing. -/
structure Request where
  body : List UInt8
  sigHeader : String
  event : String
deriving DecidableEq, Repr

/-- What `handler` does to the outside, in order: a line handed to `log`, an external command
run to completion, a write to the response body, or a status set with `w.WriteHeader`. -/
inductive Effect where
  | log (line : String)
  | exec (cmd : String) (args : List String)
  | write (data : String)
  | writeHeader (status : Nat)
deriving DecidableEq, Repr

/-- The outcome of `c.Run()` for a command line: `none` when it succeeds, else the error text
(the command could not start, or exited non-zero). -/
abbrev World := String → List String → Option String

/-- The lower-case hex HMAC-SHA256 of the payload under the secret: `expected` in
`verifySignature`. -/
def expectedSig (cfg : Config) (payload : List UInt8) : String :=
  Hex.encodeToString (Hmac.sum (bytesOf cfg.secret) payload)

/-- Go function `verifySignature`. -/
def verifySignature (cfg : Config) (payload : List UInt8) (sig : String) : Bool :=
  let expected := expectedSig cfg payload
  bytesOf expected == bytesOf sig

/-- Go function `run`: log the command line, run it, log an error if there is one. -/
def run (world : World) (cmd : String) (args : List String) : List Effect :=
  [Effect.log ("Running: " ++ cmd ++ " [" ++ " ".intercalate args ++ "]"), Effect.exec cmd args] ++
  match world cmd args with
  | none => []
  | some err => [Effect.log ("ERROR running " ++ cmd ++ ": " ++ err)]

/-- The `switch ev.Action` of the `"repository"` case. -/
def repositoryAction (cfg : Config) (world : World) (body : List UInt8) (ev : RepoEvent) :
    List Effect :=
  let name := ev.Repository.Name
  let url := ev.Repository.CloneURL
  let path := cfg.repoRoot ++ "/" ++ name
  if ev.Action = "created" ∨ ev.Action = "publicized" then
    run world cfg.mirrorBin [url]
  else if ev.Action = "deleted" ∨ ev.Action = "privatized" then
    run world "rm" ["-rf", path]
  else if ev.Action = "renamed" then
    let old := decodeOld body
    let oldPath := cfg.repoRoot ++ "/" ++ old.Repository.PreviousName
    let newPath := cfg.repoRoot ++ "/" ++ name
    run world "mv" [oldPath, newPath]
  else []

/-- The `switch event` of `handler`. -/
def dispatch (cfg : Config) (world : World) (event : String) (body : List UInt8) : List Effect :=
  if event = "repository" then
    let ev := decodeRepoEvent body
    [Effect.log ("repository action=" ++ ev.Action ++ " repo=" ++ ev.Repository.Name
        ++ " private=" ++ toString ev.Repository.Private)] ++
    repositoryAction cfg world body ev
  else if event = "installation_repositories" then
    let ev := decodeInstallationRepoEvent body
    [Effect.log ("installation_repositories action=" ++ ev.Action
        ++ " added=" ++ toString ev.RepositoriesAdded.length
        ++ " removed=" ++ toString ev.RepositoriesRemoved.length ++ " — ignored")]
  else if event = "push" ∨ event = "create" ∨ event = "delete" ∨ event = "release" then
    [Effect.log ("triggering mirror-sync for event: " ++ event)] ++
    run world cfg.mirrorSyncBin []
  else
    [Effect.log ("Ignoring event: " ++ event)]

/-- Go function `handler`: the trace of its effects on one request. -/
def handler (cfg : Config) (world : World) (r : Request) : List Effect :=
  let body := r.body
  let sigHeader := r.sigHeader
  let sig := Scan.sscanfSig sigHeader
  if !verifySignature cfg body sig then
    [Effect.log "Invalid signature"]
  else
    let event := r.event
    [Effect.log ("Received event: " ++ event)] ++
    dispatch cfg world event body ++
    [Effect.write "OK\n"]

/-- The external commands of a trace, in order: each `run(cmd, args...)` that was made. -/
def commands : List Effect → List (String × List String)
  | [] => []
  | .exec cmd args :: rest => (cmd, args) :: commands rest
  | _ :: rest => commands rest

/-- The bytes written to the response body, in order. -/
def writes : List Effect → List String
  | [] => []
  | .write data :: rest => data :: writes rest
  | _ :: rest => writes rest

/-- The statuses set with `WriteHeader`, in order. -/
def statuses : List Effect → List Nat
  | [] => []
  | .writeHeader status :: rest => status :: statuses rest
  | _ :: rest => statuses rest

/-- The status `net/http` sends for a trace: the one set before the first write, else 200. -/
def responseStatus : List Effect → Nat
  | [] => 200
  | .writeHeader status :: _ => status
  | .write _ :: _ => 200
  | _ :: rest => responseStatus rest

/-- The response body `net/http` sends for a trace. -/
def responseBody (t : List Effect) : String := String.join (writes t)

/-- The configuration when no environment variable is set. -/
def defaultConfig : Config := Config.load (fun _ => "")

/-- Every command succeeds. -/
def quietWorld : World := fun _ _ => none

/-- Every command fails. -/
def failingWorld : World := fun _ _ => some "exit status 1"

/-- A signed `repository` event: `created`, with a clone URL. -/
def createdRequest : Request :=
  { body := bytesOf ("\x7b\"action\":\"created\",\"repository\":" ++
      "\x7b\"clone_url\":\"https://example.com/r.git\"\x7d\x7d")
    sigHeader := "sha256=0d7a4fe5e77ad28717fd370d2e6ae3add5e0267016cd7d2d779929d9fa2454c7"
    event := "repository" }

/-- A signed `repository` event: `deleted`, with a name that leaves the repository root. -/
def deletedRequest : Request :=
  { body := bytesOf "\x7b\"action\":\"deleted\",\"repository\":\x7b\"name\":\"../x\"\x7d\x7d"
    sigHeader := "sha256=1f20e749572bb01842bf32049457fd3af3e5287930d754274de361390d4319e4"
    event := "repository" }

/-- A signed `repository` event: `renamed` from `old` to `new`. -/
def renamedRequest : Request :=
  { body := bytesOf ("\x7b\"action\":\"renamed\",\"repository\":" ++
      "\x7b\"name\":\"new\",\"previous_name\":\"old\"\x7d\x7d")
    sigHeader := "sha256=2f66aa2b70afc42cd24e44ec74d8be1cf022968b32f2785a19a1c21d0b92ec9e"
    event := "repository" }

/-- A signed `push` event whose body is not JSON. -/
def pushRequest : Request :=
  { body := bytesOf "not json"
    sigHeader := "sha256=ca9bf17a6d6c859b8ed1c0d74bb5b360a1bee0886b949221a79f5e5eafc0ff69"
    event := "push" }

/-- A signed `installation_repositories` event with three added and one removed repository. -/
def installationRequest : Request :=
  { body := bytesOf ("\x7b\"action\":\"added\",\"repositories_added\":" ++
      "[\x7b\"name\":\"a\"\x7d,\x7b\"name\":\"b\"\x7d,\x7b\"name\":\"c\"\x7d]," ++
      "\"repositories_removed\":[\x7b\"name\":\"d\"\x7d]\x7d")
    sigHeader := "sha256=efaf321cce4327814eaa06a6fcab9d2f2ef61d0aaeaea0c931e54ba6ba0b73a6"
    event := "installation_repositories" }

/-- A signed `release` event with an empty JSON object as body. -/
def releaseRequest : Request :=
  { body := bytesOf "\x7b\x7d"
    sigHeader := "sha256=ed368d758945c249e28064951b7de4518c8950827edd53e6b80a67e91cbd1ba3"
    event := "release" }

/-- A `push` event with an empty body and a signature that is not the body's HMAC. -/
def forgedRequest : Request :=
  { body := []
    sigHeader := "sha256=0000000000000000000000000000000000000000000000000000000000000000"
    event := "push" }

/-- A `push` event with an empty body and no signature header. -/
def unsignedRequest : Request :=
  { body := []
    sigHeader := ""
    event := "push" }

/-- A `push` event with an empty body whose signature header is not of the form
`sha256=<hex>`. -/
def unmarkedRequest : Request :=
  { body := []
    sigHeader := "ceb8d409012b78c7d7e9afd40b844cbf6ccca928d258774ce8058bcd514c55e3"
    event := "push" }

/-- A `push` event with an empty body whose signature header carries text after the HMAC. -/
def trailingRequest : Request :=
  { body := []
    sigHeader := "sha256=ceb8d409012b78c7d7e9afd40b844cbf6ccca928d258774ce8058bcd514c55e3 extra"
    event := "push" }

/-- The body of a `repository` event whose `clone_url` is a number. -/
def numberUrlBody : List UInt8 :=
  bytesOf "\x7b\"action\":\"created\",\"repository\":\x7b\"clone_url\":1\x7d\x7d"

end Webhook

/-- Known answer of FIPS 180-4 for SHA-256: the digest of `abc`. -/
theorem sha256_abc :
    Hex.encodeToString (Sha256.sum (bytesOf "abc")) =
      "ba7816bf8f01cfea414140de5dae2223b00361a396177a9cb410ff61f20015ad" := by
  decide!

/-- Known answer of RFC 4231, test case 2, for HMAC-SHA256. -/
theorem hmac_rfc4231_case2 :
    Hex.encodeToString (Hmac.sum (bytesOf "Jefe") (bytesOf "what do ya want for nothing?")) =
      "5bdcc146bf60754e6a042426089575c75a003f089d2739839dec58b964ec3843" := by
  decide!

/-- The scan of a signature header: the word after `sha256=`, up to the first space. -/
theorem sscanfSig_examples :
    Scan.sscanfSig "sha256=abc" = "abc" ∧ Scan.sscanfSig "sha256=abc def" = "abc" ∧
      Scan.sscanfSig "sha256= \tabc\ndef" = "abc" ∧ Scan.sscanfSig "sha256=" = "" ∧
      Scan.sscanfSig "sha256=\nabc" = "" ∧ Scan.sscanfSig " sha256=abc" = "" ∧
      Scan.sscanfSig "sha1=abc" = "" ∧ Scan.sscanfSig "" = "" := by
  decide

/-- How `json.Unmarshal` fills a `RepoEvent`: a text that is not JSON leaves it untouched, keys
match without regard to case, the last of two equal keys wins, and `null` or a value of the
wrong kind leaves the field as it was. -/
theorem unmarshal_examples :
    Webhook.unmarshal Webhook.storeRepoEvent (bytesOf "not json") Webhook.RepoEvent.zero =
        (Webhook.RepoEvent.zero, some Json.Error.SyntaxError) ∧
      Webhook.unmarshal Webhook.storeRepoEvent
          (bytesOf "\x7b\"ACTION\":\"deleted\",\"action\":\"created\"\x7d")
          Webhook.RepoEvent.zero =
        (⟨"created", Webhook.Repo.zero⟩, none) ∧
      Webhook.unmarshal Webhook.storeRepoEvent
          (bytesOf ("\x7b\"repository\":\x7b\"name\":\"a\\u0062\",\"private\":true\x7d," ++
            "\"repository\":\x7b\"name\":null,\"clone_url\":[]\x7d\x7d"))
          Webhook.RepoEvent.zero =
        (⟨"", ⟨"ab", "", "", true⟩⟩, some (Json.Error.UnmarshalTypeError "array")) := by
  decide!

theorem uint8_ofNat_inj (a b : Nat) (ha : a < 256) (hb : b < 256)
    (h : UInt8.ofNat a = UInt8.ofNat b) : a = b := by
  have h2 := congrArg UInt8.toNat h
  rw [UInt8.toNat_ofNat_of_lt ha, UInt8.toNat_ofNat_of_lt hb] at h2
  exact h2

theorem char_toNat_lt (c : Char) : c.toNat < 1114112 := by
  have := c.valid
  simp only [UInt32.isValidChar, Nat.isValidChar] at this
  show c.val.toNat < 1114112
  omega

theorem char_toNat_inj (c d : Char) (h : c.toNat = d.toNat) : c = d := by
  apply Char.ext
  apply UInt32.ext
  exact h

theorem utf8Rune_append_inj (c d : Char) (X Y : List UInt8)
    (h : utf8Rune c ++ X = utf8Rune d ++ Y) : c = d ∧ X = Y := by
  have hc := char_toNat_lt c
  have hd := char_toNat_lt d
  simp only [utf8Rune] at h
  split_ifs at h <;>
    simp only [List.cons_append, List.nil_append, List.cons.injEq] at h <;>
    (try (exfalso; have h1 := uint8_ofNat_inj _ _ (by omega) (by omega) h.1; omega))
  · have h1 := uint8_ofNat_inj _ _ (by omega) (by omega) h.1
    exact ⟨char_toNat_inj c d h1, h.2⟩
  · have h1 := uint8_ofNat_inj _ _ (by omega) (by omega) h.1
    have h2 := uint8_ofNat_inj _ _ (by omega) (by omega) h.2.1
    exact ⟨char_toNat_inj c d (by omega), h.2.2⟩
  · have h1 := uint8_ofNat_inj _ _ (by omega) (by omega) h.1
    have h2 := uint8_ofNat_inj _ _ (by omega) (by omega) h.2.1
    have h3 := uint8_ofNat_inj _ _ (by omega) (by omega) h.2.2.1
    exact ⟨char_toNat_inj c d (by omega), h.2.2.2⟩
  · have h1 := uint8_ofNat_inj _ _ (by omega) (by omega) h.1
    have h2 := uint8_ofNat_inj _ _ (by omega) (by omega) h.2.1
    have h3 := uint8_ofNat_inj _ _ (by omega) (by omega) h.2.2.1
    have h4 := uint8_ofNat_inj _ _ (by omega) (by omega) h.2.2.2.1
    exact ⟨char_toNat_inj c d (by omega), h.2.2.2.2⟩

theorem utf8Rune_ne_nil (c : Char) : utf8Rune c ≠ [] := by
  simp only [utf8Rune]
  split_ifs <;> simp

theorem flatMap_utf8Rune_inj (a b : List Char)
    (h : a.flatMap utf8Rune = b.flatMap utf8Rune) : a = b := by
  induction a generalizing b with
  | nil =>
    cases b with
    | nil => rfl
    | cons d b =>
      exfalso
      rw [List.flatMap_nil, List.flatMap_cons] at h
      exact utf8Rune_ne_nil d (List.append_eq_nil.1 h.symm).1
  | cons c a ih =>
    cases b with
    | nil =>
      exfalso
      rw [List.flatMap_nil, List.flatMap_cons] at h
      exact utf8Rune_ne_nil c (List.append_eq_nil.1 h).1
    | cons d b =>
      rw [List.flatMap_cons, List.flatMap_cons] at h
      obtain ⟨h1, h2⟩ := utf8Rune_append_inj c d _ _ h
      rw [h1, ih b h2]

theorem bytesOf_inj (s t : String) (h : bytesOf s = bytesOf t) : s = t :=
  String.ext (flatMap_utf8Rune_inj s.data t.data h)

namespace Scan

theorem advance_eq_some (fmt input rest : List Char) :
    advance fmt input = some rest ↔ input = fmt ++ rest := by
  induction fmt generalizing input with
  | nil => simp [advance, eq_comm]
  | cons f fs ih =>
    cases input with
    | nil => simp [advance]
    | cons r input =>
      by_cases hfr : f = r
      · simp [advance, hfr, ih]
      · simp only [advance, hfr, if_false, List.cons_append, List.cons.injEq]
        constructor
        · intro h; cases h
        · intro h; exact absurd h.1.symm hfr

theorem skipSpace_cons (r : Char) (input : List Char) :
    skipSpace (r :: input) =
      if isSpace r = true then (if r = '\n' then none else skipSpace input)
      else some (r :: input) := by
  rw [skipSpace]
  by_cases hs : isSpace r = true
  · by_cases hn : r = '\n'
    · subst hn; simp [hs]
    · by_cases hr : r = '\r' ∧ input.head? = some '\n'
      · rw [if_pos hr, if_pos hs, if_neg hn]
      · rw [if_neg hr]; simp [hs, hn]
  · have h1 : r ≠ '\r' := by rintro rfl; exact hs (by decide)
    have h2 : r ≠ '\n' := by rintro rfl; exact hs (by decide)
    rw [if_neg (fun h => h1 h.1), if_neg h2, if_neg hs]; simp [hs]

theorem skipSpace_eq_some (input out : List Char) :
    skipSpace input = some out ↔
      ∃ ws, input = ws ++ out ∧ Blank ws ∧ ∀ c ∈ out.head?, isSpace c = false := by
  induction input with
  | nil =>
    constructor
    · intro h
      simp only [skipSpace, Option.some.injEq] at h
      subst h
      exact ⟨[], rfl, by simp [Blank], by simp⟩
    · rintro ⟨ws, h, -, -⟩
      have : ws = [] ∧ out = [] := by simpa using h.symm
      simp [skipSpace, this.2]
  | cons r input ih =>
    rw [skipSpace_cons]
    by_cases hs : isSpace r = true
    · rw [if_pos hs]
      have hout : ∀ ws, r :: input = ws ++ out → (∀ c ∈ out.head?, isSpace c = false) →
          ∃ ws2, ws = r :: ws2 ∧ input = ws2 ++ out := by
        intro ws h ho
        cases ws with
        | nil =>
          exfalso
          simp only [List.nil_append] at h
          have := ho r (by rw [← h]; simp)
          rw [hs] at this
          cases this
        | cons w ws =>
          simp only [List.cons_append, List.cons.injEq] at h
          exact ⟨ws, by rw [h.1], h.2⟩
      by_cases hn : r = '\n'
      · rw [if_pos hn]
        constructor
        · intro h; cases h
        · rintro ⟨ws, h, hb, ho⟩
          exfalso
          obtain ⟨ws2, rfl, -⟩ := hout ws h ho
          exact (hb r (by simp)).2 hn
      · rw [if_neg hn, ih]
        constructor
        · rintro ⟨ws, h, hb, ho⟩
          refine ⟨r :: ws, by simp [h], ?_, ho⟩
          intro c hc
          rcases List.mem_cons.1 hc with rfl | hc
          · exact ⟨hs, hn⟩
          · exact hb c hc
        · rintro ⟨ws, h, hb, ho⟩
          obtain ⟨ws2, rfl, h2⟩ := hout ws h ho
          exact ⟨ws2, h2, fun c hc => hb c (List.mem_cons_of_mem _ hc), ho⟩
    · rw [if_neg hs]
      have hf : isSpace r = false := by simpa using hs
      constructor
      · intro h
        simp only [Option.some.injEq] at h
        subst h
        exact ⟨[], rfl, by simp [Blank], by simpa using hf⟩
      · rintro ⟨ws, h, hb, ho⟩
        cases ws with
        | nil => simp only [List.nil_append] at h; rw [h]
        | cons w ws =>
          simp only [List.cons_append, List.cons.injEq] at h
          exact absurd (h.1 ▸ (hb w (by simp)).1) hs

theorem token_eq (input e : List Char) (hns : ∀ c ∈ e, isSpace c = false) :
    token input = e ↔ ∃ rest, input = e ++ rest ∧ ∀ c ∈ rest.head?, isSpace c = true := by
  induction input generalizing e with
  | nil =>
    constructor
    · intro h
      exact ⟨[], by simpa [token] using h, by simp⟩
    · rintro ⟨rest, h, -⟩
      have : e = [] ∧ rest = [] := by simpa using h.symm
      simp [token, this.1]
  | cons r input ih =>
    by_cases hs : isSpace r = true
    · have ht : token (r :: input) = [] := by simp [token, List.takeWhile, hs]
      rw [ht]
      constructor
      · intro h
        subst h
        exact ⟨r :: input, rfl, by simpa using hs⟩
      · rintro ⟨rest, h, -⟩
        cases e with
        | nil => rfl
        | cons c e =>
          simp only [List.cons_append, List.cons.injEq] at h
          have := hns c (by simp)
          rw [← h.1, hs] at this
          cases this
    · have hf : isSpace r = false := by simpa using hs
      have ht : token (r :: input) = r :: token input := by simp [token, List.takeWhile, hf]
      rw [ht]
      cases e with
      | nil =>
        constructor
        · intro h; cases h
        · rintro ⟨rest, h, hr⟩
          simp only [List.nil_append] at h
          subst h
          have := hr r (by simp)
          rw [hf] at this
          cases this
      | cons c e =>
        have hns2 : ∀ x ∈ e, isSpace x = false := fun x hx => hns x (List.mem_cons_of_mem _ hx)
        simp only [List.cons.injEq, List.cons_append, ih e hns2]
        constructor
        · rintro ⟨h1, rest, h2, h3⟩
          exact ⟨rest, ⟨h1, h2⟩, h3⟩
        · rintro ⟨rest, ⟨h1, h2⟩, h3⟩
          exact ⟨h1, rest, h2, h3⟩

/-- The scan stores the word `e` (not empty, free of spaces) exactly for the header values
that `Reads` describes. -/
theorem sscanfSig_eq_iff (e sigHeader : String) (hne : e.data ≠ [])
    (hns : ∀ c ∈ e.data, isSpace c = false) :
    sscanfSig sigHeader = e ↔ Reads e sigHeader := by
  have hne2 : e ≠ "" := fun h => hne (by rw [h])
  unfold sscanfSig Reads
  constructor
  · intro h
    split at h
    · exact absurd h.symm hne2
    · rename_i rest hadv
      rw [advance_eq_some] at hadv
      split at h
      · exact absurd h.symm hne2
      · exact absurd h.symm hne2
      · rename_i r input hskip
        rw [skipSpace_eq_some] at hskip
        obtain ⟨ws, hws, hb, -⟩ := hskip
        have ht : token (r :: input) = e.data := by rw [← h]
        rw [token_eq _ _ hns] at ht
        obtain ⟨rest2, hr2, hsp⟩ := ht
        exact ⟨ws, rest2, by rw [hadv, hws, hr2]; simp, hb, hsp⟩
  · rintro ⟨ws, rest, hh, hb, hsp⟩
    obtain ⟨c, cs, hcs⟩ := List.exists_cons_of_ne_nil hne
    have hadv : advance "sha256=".data sigHeader.data = some (ws ++ (e.data ++ rest)) := by
      rw [advance_eq_some, hh]; simp
    have hskip : skipSpace (ws ++ (e.data ++ rest)) = some (c :: (cs ++ rest)) := by
      rw [skipSpace_eq_some]
      refine ⟨ws, by rw [hcs]; simp, hb, ?_⟩
      intro x hx
      simp only [List.head?_cons, Option.mem_def, Option.some.injEq] at hx
      exact hns x (by rw [hcs, ← hx]; simp)
    rw [hadv]
    simp only [hskip]
    have ht : token (c :: (cs ++ rest)) = e.data := by
      rw [token_eq _ _ hns]
      exact ⟨rest, by rw [hcs]; simp, hsp⟩
    rw [ht]

theorem reads_self (e : String) : Reads e ("sha256=" ++ e) :=
  ⟨[], [], by simp, by simp [Blank], by simp⟩

end Scan

namespace Webhook

theorem beBytes_length (n x : Nat) : (Sha256.beBytes n x).length = n := by
  induction n generalizing x with
  | zero => rfl
  | succ n ih => simp [Sha256.beBytes, ih]

theorem sha256_sum_length (msg : List UInt8) : (Sha256.sum msg).length = 32 := by
  simp [Sha256.sum, Sha256.sumNat, Sha256.State.bytes, beBytes_length]

theorem hmac_sum_length (key msg : List UInt8) : (Hmac.sum key msg).length = 32 := by
  simp [Hmac.sum, sha256_sum_length]

theorem encodeChars_length (bs : List UInt8) : (Hex.encodeChars bs).length = 2 * bs.length := by
  induction bs with
  | nil => rfl
  | cons b bs ih => simp [Hex.encodeChars, ih]; omega

theorem digit_mem (n : Nat) (h : n < 16) : Hex.digit n ∈ Hex.hextable := by
  interval_cases n <;> decide

theorem encodeChars_mem (bs : List UInt8) : ∀ c ∈ Hex.encodeChars bs, c ∈ Hex.hextable := by
  induction bs with
  | nil => intro c hc; simp [Hex.encodeChars] at hc
  | cons b bs ih =>
    intro c hc
    simp only [Hex.encodeChars, List.mem_cons] at hc
    have hb : b.toNat < 256 := b.toNat_lt
    rcases hc with rfl | rfl | hc
    · exact digit_mem _ (by omega)
    · exact digit_mem _ (by omega)
    · exact ih c hc

theorem hextable_not_space : ∀ c ∈ Hex.hextable, Scan.isSpace c = false := by decide

theorem expectedSig_length (cfg : Config) (payload : List UInt8) :
    (expectedSig cfg payload).data.length = 64 := by
  simp [expectedSig, Hex.encodeToString, encodeChars_length, hmac_sum_length]

theorem expectedSig_not_space (cfg : Config) (payload : List UInt8) :
    ∀ c ∈ (expectedSig cfg payload).data, Scan.isSpace c = false := fun c hc =>
  hextable_not_space c (encodeChars_mem _ c hc)

end Webhook

namespace Webhook

theorem expectedSig_ne_nil (cfg : Config) (payload : List UInt8) :
    (expectedSig cfg payload).data ≠ [] := by
  intro h
  have := expectedSig_length cfg payload
  rw [h] at this
  cases this

/-- The comparison of `verifySignature` succeeds exactly on the expected signature. -/
theorem verifySignature_iff (cfg : Config) (payload : List UInt8) (sig : String) :
    verifySignature cfg payload sig = true ↔ sig = expectedSig cfg payload := by
  unfold verifySignature
  simp only [beq_iff_eq]
  constructor
  · intro h; exact (bytesOf_inj _ _ h).symm
  · intro h; rw [h]

/-- The scan reads the expected signature exactly from the header values of `Scan.Reads`. -/
theorem sscanfSig_expected_iff (cfg : Config) (payload : List UInt8) (sigHeader : String) :
    Scan.sscanfSig sigHeader = expectedSig cfg payload ↔
      Scan.Reads (expectedSig cfg payload) sigHeader :=
  Scan.sscanfSig_eq_iff _ _ (expectedSig_ne_nil cfg payload) (expectedSig_not_space cfg payload)

/-- A header of the form `sha256=<hex-hmac>` scans to the expected signature. -/
theorem sscanfSig_signed (cfg : Config) (payload : List UInt8) :
    Scan.sscanfSig ("sha256=" ++ expectedSig cfg payload) = expectedSig cfg payload :=
  (sscanfSig_expected_iff cfg payload _).2 (Scan.reads_self _)

/-- A request whose scanned signature is not the expected one is dropped after one log line. -/
theorem handler_rejects (cfg : Config) (world : World) (r : Request)
    (h : Scan.sscanfSig r.sigHeader ≠ expectedSig cfg r.body) :
    handler cfg world r = [Effect.log "Invalid signature"] := by
  have hv : verifySignature cfg r.body (Scan.sscanfSig r.sigHeader) = false := by
    rw [Bool.eq_false_iff]
    intro hv
    exact h ((verifySignature_iff _ _ _).1 hv)
  simp [handler, hv]

/-- A request whose scanned signature is the expected one is dispatched. -/
theorem handler_accepts (cfg : Config) (world : World) (r : Request)
    (h : Scan.sscanfSig r.sigHeader = expectedSig cfg r.body) :
    handler cfg world r =
      Effect.log ("Received event: " ++ r.event) ::
        (dispatch cfg world r.event r.body ++ [Effect.write "OK\n"]) := by
  have hv : verifySignature cfg r.body (Scan.sscanfSig r.sigHeader) = true :=
    (verifySignature_iff _ _ _).2 h
  simp [handler, hv]

/-- A correctly signed request is dispatched. -/
theorem handler_signed (cfg : Config) (world : World) (r : Request)
    (h : r.sigHeader = "sha256=" ++ expectedSig cfg r.body) :
    handler cfg world r =
      Effect.log ("Received event: " ++ r.event) ::
        (dispatch cfg world r.event r.body ++ [Effect.write "OK\n"]) :=
  handler_accepts cfg world r (by rw [h]; exact sscanfSig_signed cfg r.body)

theorem commands_append (a b : List Effect) : commands (a ++ b) = commands a ++ commands b := by
  induction a with
  | nil => rfl
  | cons e a ih => cases e <;> simp [commands, ih]

theorem writes_append (a b : List Effect) : writes (a ++ b) = writes a ++ writes b := by
  induction a with
  | nil => rfl
  | cons e a ih => cases e <;> simp [writes, ih]

theorem statuses_append (a b : List Effect) : statuses (a ++ b) = statuses a ++ statuses b := by
  induction a with
  | nil => rfl
  | cons e a ih => cases e <;> simp [statuses, ih]

theorem commands_run (world : World) (cmd : String) (args : List String) :
    commands (run world cmd args) = [(cmd, args)] := by
  unfold run
  cases world cmd args <;> simp [commands]

theorem writes_run (world : World) (cmd : String) (args : List String) :
    writes (run world cmd args) = [] := by
  unfold run
  cases world cmd args <;> simp [writes]

theorem statuses_run (world : World) (cmd : String) (args : List String) :
    statuses (run world cmd args) = [] := by
  unfold run
  cases world cmd args <;> simp [statuses]

theorem writes_repositoryAction (cfg : Config) (world : World) (body : List UInt8)
    (ev : RepoEvent) : writes (repositoryAction cfg world body ev) = [] := by
  unfold repositoryAction
  split_ifs
  · exact writes_run _ _ _
  · exact writes_run _ _ _
  · exact writes_run _ _ _
  · rfl

theorem statuses_repositoryAction (cfg : Config) (world : World) (body : List UInt8)
    (ev : RepoEvent) : statuses (repositoryAction cfg world body ev) = [] := by
  unfold repositoryAction
  split_ifs
  · exact statuses_run _ _ _
  · exact statuses_run _ _ _
  · exact statuses_run _ _ _
  · rfl

/-- The dispatch writes nothing to the response. -/
theorem writes_dispatch (cfg : Config) (world : World) (event : String) (body : List UInt8) :
    writes (dispatch cfg world event body) = [] := by
  unfold dispatch
  split_ifs
  · rw [writes_append, writes_repositoryAction]; rfl
  · rfl
  · rw [writes_append, writes_run]; rfl
  · rfl

/-- The dispatch sets no status. -/
theorem statuses_dispatch (cfg : Config) (world : World) (event : String) (body : List UInt8) :
    statuses (dispatch cfg world event body) = [] := by
  unfold dispatch
  split_ifs
  · rw [statuses_append, statuses_repositoryAction]; rfl
  · rfl
  · rw [statuses_append, statuses_run]; rfl
  · rfl

/-- The commands of a dispatched request are those of the dispatch. -/
theorem commands_handler_signed (cfg : Config) (world : World) (r : Request)
    (h : r.sigHeader = "sha256=" ++ expectedSig cfg r.body) :
    commands (handler cfg world r) = commands (dispatch cfg world r.event r.body) := by
  rw [handler_signed cfg world r h]
  show commands (dispatch cfg world r.event r.body ++ [Effect.write "OK\n"]) = _
  rw [commands_append]
  exact List.append_nil _

/-- The commands of the `"repository"` case are those of its `switch ev.Action`. -/
theorem commands_dispatch_repository (cfg : Config) (world : World) (body : List UInt8) :
    commands (dispatch cfg world "repository" body) =
      commands (repositoryAction cfg world body (decodeRepoEvent body)) := by
  unfold dispatch
  rw [if_pos rfl, commands_append]
  rfl

theorem responseStatus_of_statuses_nil (t : List Effect) (h : statuses t = []) :
    responseStatus t = 200 := by
  induction t with
  | nil => rfl
  | cons e t ih =>
    cases e with
    | log line => exact ih h
    | exec cmd args => exact ih h
    | write data => rfl
    | writeHeader status => simp [statuses] at h

end Webhook

namespace Webhook

/-- The scan of a header value that does not begin with `sha256=` stores nothing. -/
theorem sscanfSig_unmarked (sigHeader : String)
    (h : ¬ "sha256=".data <+: sigHeader.data) : Scan.sscanfSig sigHeader = "" := by
  unfold Scan.sscanfSig
  split
  · rfl
  · rename_i rest hadv
    rw [Scan.advance_eq_some] at hadv
    exact absurd ⟨rest, hadv.symm⟩ h

/-- A request whose signature header does not begin with `sha256=` (a missing or empty header
among them) runs no external command. -/
theorem unmarked_runs_no_command (cfg : Config) (world : World) (r : Request)
    (h : ¬ "sha256=".data <+: r.sigHeader.data) : commands (handler cfg world r) = [] := by
  have hne : Scan.sscanfSig r.sigHeader ≠ expectedSig cfg r.body := by
    rw [sscanfSig_unmarked _ h]
    intro he
    exact expectedSig_ne_nil cfg r.body (by rw [← he])
  rw [handler_rejects cfg world r hne]
  rfl

/-- Claim C1. When the signature that `handler` extracts from the `X-Hub-Signature-256` value
differs from the lower-case hex HMAC-SHA256 of the body under the secret, `handler` runs no
external command, whatever the body and the `X-GitHub-Event` value. -/
theorem invalid_signature_runs_no_command (cfg : Config) (world : World) (r : Request)
    (h : Scan.sscanfSig r.sigHeader ≠ expectedSig cfg r.body) :
    commands (handler cfg world r) = [] := by
  rw [handler_rejects cfg world r h]
  rfl

/-- Claim C1 on a request signed with sixty-four zeros instead of the HMAC of its body. -/
theorem invalid_signature_runs_no_command_witness :
    Scan.sscanfSig forgedRequest.sigHeader ≠ expectedSig defaultConfig forgedRequest.body ∧
      commands (handler defaultConfig quietWorld forgedRequest) = [] :=
  have hsig : Scan.sscanfSig forgedRequest.sigHeader ≠
      expectedSig defaultConfig forgedRequest.body := by decide!
  ⟨hsig, invalid_signature_runs_no_command defaultConfig quietWorld forgedRequest hsig⟩

/-- Claim C2. A correctly signed `repository` request whose decoded action is `created` or
`publicized` runs exactly one command: `mirrorBin` with the decoded `clone_url` as its only
argument. -/
theorem created_runs_mirror (cfg : Config) (world : World) (r : Request)
    (hsig : r.sigHeader = "sha256=" ++ expectedSig cfg r.body)
    (hev : r.event = "repository")
    (hact : (decodeRepoEvent r.body).Action = "created" ∨
      (decodeRepoEvent r.body).Action = "publicized") :
    commands (handler cfg world r) =
      [(cfg.mirrorBin, [(decodeRepoEvent r.body).Repository.CloneURL])] := by
  rw [commands_handler_signed cfg world r hsig, hev, commands_dispatch_repository]
  unfold repositoryAction
  rw [if_pos hact]
  exact commands_run _ _ _

/-- Claim C2 on the request of the specification: `created`, with the clone URL
`https://example.com/r.git`, signed under the default secret. -/
theorem created_runs_mirror_witness :
    createdRequest.sigHeader = "sha256=" ++ expectedSig defaultConfig createdRequest.body ∧
      createdRequest.event = "repository" ∧
      (decodeRepoEvent createdRequest.body).Action = "created" ∧
      (decodeRepoEvent createdRequest.body).Repository.CloneURL = "https://example.com/r.git" ∧
      commands (handler defaultConfig quietWorld createdRequest) =
        [(defaultConfig.mirrorBin,
          [(decodeRepoEvent createdRequest.body).Repository.CloneURL])] :=
  have hsig : createdRequest.sigHeader =
      "sha256=" ++ expectedSig defaultConfig createdRequest.body := by decide!
  have hact : (decodeRepoEvent createdRequest.body).Action = "created" := by decide!
  ⟨hsig, rfl, hact, by decide!,
    created_runs_mirror defaultConfig quietWorld createdRequest hsig rfl (Or.inl hact)⟩

/-- Claim C3. A correctly signed `repository` request whose decoded action is `deleted` or
`privatized` runs exactly one command: `rm -rf` on `repoRoot`, a slash and the decoded
repository name, used as it is. -/
theorem deleted_runs_rm (cfg : Config) (world : World) (r : Request)
    (hsig : r.sigHeader = "sha256=" ++ expectedSig cfg r.body)
    (hev : r.event = "repository")
    (hact : (decodeRepoEvent r.body).Action = "deleted" ∨
      (decodeRepoEvent r.body).Action = "privatized") :
    commands (handler cfg world r) =
      [("rm", ["-rf", cfg.repoRoot ++ "/" ++ (decodeRepoEvent r.body).Repository.Name])] := by
  have hno : ¬ ((decodeRepoEvent r.body).Action = "created" ∨
      (decodeRepoEvent r.body).Action = "publicized") := by
    rcases hact with h | h <;> rw [h] <;> decide
  rw [commands_handler_signed cfg world r hsig, hev, commands_dispatch_repository]
  unfold repositoryAction
  rw [if_neg hno, if_pos hact]
  exact commands_run _ _ _

/-- Claim C3 on a signed `deleted` event whose repository name is `../x`. -/
theorem deleted_runs_rm_witness :
    deletedRequest.sigHeader = "sha256=" ++ expectedSig defaultConfig deletedRequest.body ∧
      deletedRequest.event = "repository" ∧
      (decodeRepoEvent deletedRequest.body).Action = "deleted" ∧
      (decodeRepoEvent deletedRequest.body).Repository.Name = "../x" ∧
      commands (handler defaultConfig quietWorld deletedRequest) =
        [("rm", ["-rf", defaultConfig.repoRoot ++ "/" ++
          (decodeRepoEvent deletedRequest.body).Repository.Name])] :=
  have hsig : deletedRequest.sigHeader =
      "sha256=" ++ expectedSig defaultConfig deletedRequest.body := by decide!
  have hact : (decodeRepoEvent deletedRequest.body).Action = "deleted" := by decide!
  ⟨hsig, rfl, hact, by decide!,
    deleted_runs_rm defaultConfig quietWorld deletedRequest hsig rfl (Or.inl hact)⟩

/-- Claim C4. A correctly signed `repository` request whose decoded action is `renamed` runs
exactly one command: `mv` from `repoRoot/previous_name` to `repoRoot/name`, in that order. -/
theorem renamed_runs_mv (cfg : Config) (world : World) (r : Request)
    (hsig : r.sigHeader = "sha256=" ++ expectedSig cfg r.body)
    (hev : r.event = "repository")
    (hact : (decodeRepoEvent r.body).Action = "renamed") :
    commands (handler cfg world r) =
      [("mv", [cfg.repoRoot ++ "/" ++ (decodeOld r.body).Repository.PreviousName,
               cfg.repoRoot ++ "/" ++ (decodeRepoEvent r.body).Repository.Name])] := by
  have h1 : ¬ ((decodeRepoEvent r.body).Action = "created" ∨
      (decodeRepoEvent r.body).Action = "publicized") := by rw [hact]; decide
  have h2 : ¬ ((decodeRepoEvent r.body).Action = "deleted" ∨
      (decodeRepoEvent r.body).Action = "privatized") := by rw [hact]; decide
  rw [commands_handler_signed cfg world r hsig, hev, commands_dispatch_repository]
  unfold repositoryAction
  rw [if_neg h1, if_neg h2, if_pos hact]
  exact commands_run _ _ _

/-- Claim C4 on the request of the specification: `renamed`, from `old` to `new`. -/
theorem renamed_runs_mv_witness :
    renamedRequest.sigHeader = "sha256=" ++ expectedSig defaultConfig renamedRequest.body ∧
      renamedRequest.event = "repository" ∧
      (decodeRepoEvent renamedRequest.body).Action = "renamed" ∧
      (decodeOld renamedRequest.body).Repository.PreviousName = "old" ∧
      (decodeRepoEvent renamedRequest.body).Repository.Name = "new" ∧
      commands (handler defaultConfig quietWorld renamedRequest) =
        [("mv", [defaultConfig.repoRoot ++ "/" ++
                  (decodeOld renamedRequest.body).Repository.PreviousName,
                 defaultConfig.repoRoot ++ "/" ++
                  (decodeRepoEvent renamedRequest.body).Repository.Name])] :=
  have hsig : renamedRequest.sigHeader =
      "sha256=" ++ expectedSig defaultConfig renamedRequest.body := by decide!
  have hact : (decodeRepoEvent renamedRequest.body).Action = "renamed" := by decide!
  ⟨hsig, rfl, hact, by decide!, by decide!,
    renamed_runs_mv defaultConfig quietWorld renamedRequest hsig rfl hact⟩

/-- Claim C5. A correctly signed request whose event is `push`, `create`, `delete` or
`release` runs exactly one command, `mirrorSyncBin` without arguments, for every body. -/
theorem sync_events_run_mirror_sync (cfg : Config) (world : World) (r : Request)
    (hsig : r.sigHeader = "sha256=" ++ expectedSig cfg r.body)
    (hev : r.event = "push" ∨ r.event = "create" ∨ r.event = "delete" ∨ r.event = "release") :
    commands (handler cfg world r) = [(cfg.mirrorSyncBin, [])] := by
  have h1 : r.event ≠ "repository" := by
    rcases hev with h | h | h | h <;> rw [h] <;> decide
  have h2 : r.event ≠ "installation_repositories" := by
    rcases hev with h | h | h | h <;> rw [h] <;> decide
  rw [commands_handler_signed cfg world r hsig]
  unfold dispatch
  rw [if_neg h1, if_neg h2, if_pos hev, commands_append, commands_run]
  rfl

/-- Claim C5 on a signed `push` event whose body is not JSON. -/
theorem sync_events_run_mirror_sync_witness :
    pushRequest.sigHeader = "sha256=" ++ expectedSig defaultConfig pushRequest.body ∧
      pushRequest.event = "push" ∧
      commands (handler defaultConfig quietWorld pushRequest) =
        [(defaultConfig.mirrorSyncBin, [])] :=
  have hsig : pushRequest.sigHeader =
      "sha256=" ++ expectedSig defaultConfig pushRequest.body := by decide!
  ⟨hsig, rfl,
    sync_events_run_mirror_sync defaultConfig quietWorld pushRequest hsig (Or.inl rfl)⟩

/-- Claim C6. A correctly signed request runs no command when its event is
`installation_repositories`, or `repository` with a decoded action outside the five acting
ones, or none of the six events of the dispatch table. -/
theorem other_events_run_no_command (cfg : Config) (world : World) (r : Request)
    (hsig : r.sigHeader = "sha256=" ++ expectedSig cfg r.body)
    (hev : r.event = "installation_repositories" ∨
      (r.event = "repository" ∧ (decodeRepoEvent r.body).Action ∉
        ["created", "publicized", "deleted", "privatized", "renamed"]) ∨
      r.event ∉ ["repository", "installation_repositories", "push", "create", "delete",
        "release"]) :
    commands (handler cfg world r) = [] := by
  rw [commands_handler_signed cfg world r hsig]
  rcases hev with h | ⟨h, hact⟩ | h
  · rw [h]
    unfold dispatch
    rw [if_neg (by decide), if_pos rfl]
    rfl
  · rw [h, commands_dispatch_repository]
    simp only [List.mem_cons, List.mem_singleton, List.not_mem_nil, or_false, not_or] at hact
    unfold repositoryAction
    rw [if_neg (by rintro (h1 | h1); exact hact.1 h1; exact hact.2.1 h1),
      if_neg (by rintro (h1 | h1); exact hact.2.2.1 h1; exact hact.2.2.2.1 h1),
      if_neg hact.2.2.2.2]
    rfl
  · simp only [List.mem_cons, List.mem_singleton, List.not_mem_nil, or_false, not_or] at h
    unfold dispatch
    rw [if_neg h.1, if_neg h.2.1,
      if_neg (by
        rintro (h1 | h1 | h1 | h1)
        · exact h.2.2.1 h1
        · exact h.2.2.2.1 h1
        · exact h.2.2.2.2.1 h1
        · exact h.2.2.2.2.2 h1)]
    rfl

/-- Claim C6 on the request of the specification: `installation_repositories` with three
added and one removed repository. -/
theorem other_events_run_no_command_witness :
    installationRequest.sigHeader =
        "sha256=" ++ expectedSig defaultConfig installationRequest.body ∧
      installationRequest.event = "installation_repositories" ∧
      (decodeInstallationRepoEvent installationRequest.body).RepositoriesAdded.length = 3 ∧
      (decodeInstallationRepoEvent installationRequest.body).RepositoriesRemoved.length = 1 ∧
      commands (handler defaultConfig quietWorld installationRequest) = [] :=
  have hsig : installationRequest.sigHeader =
      "sha256=" ++ expectedSig defaultConfig installationRequest.body := by decide!
  ⟨hsig, rfl, by decide!, by decide!,
    other_events_run_no_command defaultConfig quietWorld installationRequest hsig
      (Or.inl rfl)⟩

/-- Claim C7. For a correctly signed request, whatever the event, the body and the outcome of
the command: `handler` writes `OK` and a newline to the response exactly once, as its last
effect (so after any command), and sets no status, so the response is 200 with body `OK`. -/
theorem signed_request_answers_ok (cfg : Config) (world : World) (r : Request)
    (hsig : r.sigHeader = "sha256=" ++ expectedSig cfg r.body) :
    writes (handler cfg world r) = ["OK\n"] ∧
      (handler cfg world r).getLast? = some (Effect.write "OK\n") ∧
      statuses (handler cfg world r) = [] ∧
      responseStatus (handler cfg world r) = 200 ∧
      responseBody (handler cfg world r) = "OK\n" := by
  have hw : writes (handler cfg world r) = ["OK\n"] := by
    rw [handler_signed cfg world r hsig]
    show writes (dispatch cfg world r.event r.body ++ [Effect.write "OK\n"]) = _
    rw [writes_append, writes_dispatch]
    rfl
  have hs : statuses (handler cfg world r) = [] := by
    rw [handler_signed cfg world r hsig]
    show statuses (dispatch cfg world r.event r.body ++ [Effect.write "OK\n"]) = _
    rw [statuses_append, statuses_dispatch]
    rfl
  refine ⟨hw, ?_, hs, responseStatus_of_statuses_nil _ hs, ?_⟩
  · rw [handler_signed cfg world r hsig, ← List.cons_append, List.getLast?_append]
    rfl
  · unfold responseBody
    rw [hw]
    rfl

/-- Claim C7 on a signed `release` event whose command fails. -/
theorem signed_request_answers_ok_witness :
    releaseRequest.sigHeader = "sha256=" ++ expectedSig defaultConfig releaseRequest.body ∧
      failingWorld defaultConfig.mirrorSyncBin [] = some "exit status 1" ∧
      commands (handler defaultConfig failingWorld releaseRequest) =
        [(defaultConfig.mirrorSyncBin, [])] ∧
      (writes (handler defaultConfig failingWorld releaseRequest) = ["OK\n"] ∧
        (handler defaultConfig failingWorld releaseRequest).getLast? =
          some (Effect.write "OK\n") ∧
        statuses (handler defaultConfig failingWorld releaseRequest) = [] ∧
        responseStatus (handler defaultConfig failingWorld releaseRequest) = 200 ∧
        responseBody (handler defaultConfig failingWorld releaseRequest) = "OK\n") := by
  have hsig : releaseRequest.sigHeader =
      "sha256=" ++ expectedSig defaultConfig releaseRequest.body := by decide!
  refine ⟨hsig, rfl, ?_,
    signed_request_answers_ok defaultConfig failingWorld releaseRequest hsig⟩
  rw [commands_handler_signed _ _ _ hsig]
  decide!

/-- Counterexample to claim C8: a request without signature header is answered with an empty
body, not with `OK`. -/
theorem unsigned_request_body_not_ok :
    Scan.sscanfSig unsignedRequest.sigHeader ≠
        expectedSig defaultConfig unsignedRequest.body ∧
      writes (handler defaultConfig quietWorld unsignedRequest) = [] ∧
      responseStatus (handler defaultConfig quietWorld unsignedRequest) = 200 ∧
      responseBody (handler defaultConfig quietWorld unsignedRequest) ≠ "OK\n" := by
  have h : Scan.sscanfSig unsignedRequest.sigHeader ≠
      expectedSig defaultConfig unsignedRequest.body := by
    rw [sscanfSig_unmarked _ (by decide)]
    intro he
    exact expectedSig_ne_nil _ _ (by rw [← he])
  rw [handler_rejects _ _ _ h]
  exact ⟨h, rfl, rfl, by decide⟩

/-- Claim C8, amended. When the extracted signature is not the expected one, `handler` only
logs `Invalid signature`: it writes nothing and sets no status, so the response is 200 with
an empty body. -/
theorem invalid_signature_answers_empty (cfg : Config) (world : World) (r : Request)
    (h : Scan.sscanfSig r.sigHeader ≠ expectedSig cfg r.body) :
    handler cfg world r = [Effect.log "Invalid signature"] ∧
      writes (handler cfg world r) = [] ∧
      statuses (handler cfg world r) = [] ∧
      responseStatus (handler cfg world r) = 200 ∧
      responseBody (handler cfg world r) = "" := by
  rw [handler_rejects cfg world r h]
  exact ⟨rfl, rfl, rfl, rfl, rfl⟩

/-- Claim C8, amended, on a request whose header holds the right digest without `sha256=`. -/
theorem invalid_signature_answers_empty_witness :
    Scan.sscanfSig unmarkedRequest.sigHeader ≠
        expectedSig defaultConfig unmarkedRequest.body ∧
      (handler defaultConfig quietWorld unmarkedRequest = [Effect.log "Invalid signature"] ∧
        writes (handler defaultConfig quietWorld unmarkedRequest) = [] ∧
        statuses (handler defaultConfig quietWorld unmarkedRequest) = [] ∧
        responseStatus (handler defaultConfig quietWorld unmarkedRequest) = 200 ∧
        responseBody (handler defaultConfig quietWorld unmarkedRequest) = "") :=
  have h : Scan.sscanfSig unmarkedRequest.sigHeader ≠
      expectedSig defaultConfig unmarkedRequest.body := by
    rw [sscanfSig_unmarked _ (by decide)]
    intro he
    exact expectedSig_ne_nil _ _ (by rw [← he])
  ⟨h, invalid_signature_answers_empty defaultConfig quietWorld unmarkedRequest h⟩

/-- Counterexample to claim C9: a header value with text after the hex digest, separated by
a space, is not of the exact form `sha256=<hex-hmac>`, yet the request is authenticated and
dispatched. -/
theorem trailing_text_is_authenticated :
    trailingRequest.sigHeader ≠
        "sha256=" ++ expectedSig defaultConfig trailingRequest.body ∧
      handler defaultConfig quietWorld trailingRequest ≠ [Effect.log "Invalid signature"] ∧
      commands (handler defaultConfig quietWorld trailingRequest) =
        [("/usr/local/bin/mirror-sync", [])] := by
  have hscan : Scan.sscanfSig trailingRequest.sigHeader =
      expectedSig defaultConfig trailingRequest.body := by decide!
  rw [handler_accepts _ _ _ hscan, ← hscan]
  exact ⟨by decide, by decide, by decide⟩

/-- Claim C9, amended. `handler` goes on to the event dispatch exactly when the header value
is `sha256=`, then spaces other than newline (possibly none), then the lower-case hex
HMAC-SHA256 of the body, then nothing more or a space followed by any text; every other
header value is rejected with the single log line `Invalid signature`. -/
theorem authenticated_iff_reads (cfg : Config) (world : World) (r : Request) :
    (handler cfg world r =
        Effect.log ("Received event: " ++ r.event) ::
          (dispatch cfg world r.event r.body ++ [Effect.write "OK\n"]) ↔
      Scan.Reads (expectedSig cfg r.body) r.sigHeader) ∧
    (handler cfg world r = [Effect.log "Invalid signature"] ↔
      ¬ Scan.Reads (expectedSig cfg r.body) r.sigHeader) := by
  have hlen : ∀ d : List Effect, Effect.log ("Received event: " ++ r.event) ::
      (d ++ [Effect.write "OK\n"]) ≠ [Effect.log "Invalid signature"] := by
    intro d h
    have := congrArg List.length h
    simp at this
  by_cases hr : Scan.Reads (expectedSig cfg r.body) r.sigHeader
  · have ha := handler_accepts cfg world r ((sscanfSig_expected_iff cfg r.body _).2 hr)
    refine ⟨⟨fun _ => hr, fun _ => ha⟩, ⟨fun h => ?_, fun h => absurd hr h⟩⟩
    rw [ha] at h
    exact absurd h (hlen _)
  · have hn := handler_rejects cfg world r
      (fun h => hr ((sscanfSig_expected_iff cfg r.body _).1 h))
    refine ⟨⟨fun h => ?_, fun h => absurd h hr⟩, ⟨fun _ => hr, fun _ => hn⟩⟩
    rw [hn] at h
    exact absurd h.symm (hlen _)

/-- Claim C10. The error of `json.Unmarshal` is ignored: for the body
`{"action":"created","repository":{"clone_url":1}}`, correctly signed under any secret,
`Unmarshal` returns a type error, `clone_url` keeps its zero value, and `handler` still runs
`mirrorBin` with the empty string as its only argument. -/
theorem unmarshal_error_is_ignored (cfg : Config) (world : World) :
    (unmarshal storeRepoEvent numberUrlBody RepoEvent.zero).2 =
        some (Json.Error.UnmarshalTypeError "number") ∧
      (decodeRepoEvent numberUrlBody).Action = "created" ∧
      (decodeRepoEvent numberUrlBody).Repository.CloneURL = "" ∧
      commands (handler cfg world
          ⟨numberUrlBody, "sha256=" ++ expectedSig cfg numberUrlBody, "repository"⟩) =
        [(cfg.mirrorBin, [""])] := by
  have h1 : (decodeRepoEvent numberUrlBody).Action = "created" := by decide!
  have h2 : (decodeRepoEvent numberUrlBody).Repository.CloneURL = "" := by decide!
  refine ⟨by decide!, h1, h2, ?_⟩
  rw [commands_handler_signed cfg world _ rfl, commands_dispatch_repository]
  unfold repositoryAction
  rw [if_pos (Or.inl h1), commands_run, h2]

end Webhook
